import Mathlib

/-!
# Verification of the Stock Register inventory summary

This file gives a shallow embedding of the inventory-summary computation of
`src/pages/Stock_Register.py` (the `get_inventory_summary` DuckDB query, its
post-query pandas search filter, and the page's date-window guard), and proves
or refutes the specification's claims about it.

Modelling conventions:
* Calendar dates are modelled as integers (`Int`), since only their ordering
  and equality matter to the query; e.g. 2024-01-05 is day 5.
* SQL `DECIMAL` quantities are modelled as `Int` (all quantities in the claims
  are whole units and the arithmetic involved is exact).
* SQL `NULL` is modelled with `Option`: a nullable product code is
  `Option String`, a nullable quantity is `Option Int`.  SQL three-valued
  equality in join conditions (`NULL = x` is not true) and SQL aggregate
  semantics (`SUM` ignores `NULL`s and is `NULL` on an all-`NULL` group,
  `+` propagates `NULL`, `GROUP BY` and `PARTITION BY` put all `NULL` keys
  in one group) are modelled explicitly below.
* A table is a list of rows; the list order is the order in which the data
  source presents the rows.  Where SQL leaves an order unspecified
  (`UNION ALL` concatenation, join output, peers of equal `Date` inside the
  running-sum window), the embedding fixes the presentation order, so the
  embedding is one deterministic realization; dependence of results on the
  presentation order is exhibited by permuting the input lists themselves.
-/

/-- A row of one of the four source tables (`Sales`, `CostCenter`, `Received`,
`Adjustment`): a date, a nullable product code and a nullable quantity. -/
structure SrcRow where
  date : Int
  code : Option String
  qty  : Option Int
deriving Repr, DecidableEq

/-- The four source tables read by `get_inventory_summary`. -/
structure Tables where
  sales      : List SrcRow
  costCenter : List SrcRow
  received   : List SrcRow
  adjustment : List SrcRow
deriving Repr, DecidableEq

/-- SQL `SUM` over a group of nullable values: `NULL`s are ignored; the sum is
`NULL` when no non-`NULL` value exists. -/
def sqlSum (l : List (Option Int)) : Option Int :=
  if (l.filterMap id).isEmpty then none else some (l.filterMap id).sum

/-- SQL `+` on nullable values: `NULL` propagates. -/
def sqlAdd : Option Int → Option Int → Option Int
  | some a, some b => some (a + b)
  | _, _ => none

/-- The distinct keys of a list under `key`, in order of first occurrence
(models the groups formed by SQL `GROUP BY`, where all `NULL` keys fall into
a single group — `Option` equality). -/
def keysOf {α κ : Type} [DecidableEq κ] (key : α → κ) (l : List α) : List κ :=
  (l.map key).dedup

/-- Group a list by `key`: one `(k, rows)` pair per distinct key, keys in
first-occurrence order, each group keeping the rows in list order. -/
def groupByKey {α κ : Type} [DecidableEq κ] (key : α → κ) (l : List α) :
    List (κ × List α) :=
  (keysOf key l).map fun k => (k, l.filter fun a => decide (key a = k))

/-- Insert `x` into `l` keeping `l`'s relative order among elements `le`-tied
with `x`; `x` goes before the first element it is `le`-below-or-tied with. -/
def insertLe {α : Type} (le : α → α → Bool) (x : α) : List α → List α
  | [] => [x]
  | y :: ys => if le x y then x :: y :: ys else y :: insertLe le x ys

/-- Stable insertion sort by `le` (models an SQL `ORDER BY` in which rows with
equal keys keep their presentation order). -/
def sortStable {α : Type} (le : α → α → Bool) : List α → List α
  | [] => []
  | x :: xs => insertLe le x (sortStable le xs)

/-- A row of the `Received_Data` CTE: `Received` rows and `Adjustment` rows
appended by `UNION ALL`, with `COALESCE(qty, 0)` applied; not aggregated. -/
structure RDRow where
  date : Int
  code : Option String
  qty  : Int
deriving Repr, DecidableEq

/-- The `Received_Data` CTE. -/
def receivedData (t : Tables) : List RDRow :=
  (t.received ++ t.adjustment).map fun r => ⟨r.date, r.code, r.qty.getD 0⟩

/-- A row of the inner `UNION ALL` feeding `Sales_Data`: per-(code, date)
aggregates of `Sales` (with `CostCenter_Qty` fixed at 0) and of `CostCenter`
(with `Sales_Qty` fixed at 0). -/
structure InnerRow where
  date : Int
  code : Option String
  s    : Option Int
  c    : Option Int
deriving Repr, DecidableEq

/-- The `Sales` arm of the inner union: `GROUP BY Code, Date` with
`SUM(Qty)` as `Sales_Qty` and constant `0` as `CostCenter_Qty`. -/
def innerSalesRows (t : Tables) : List InnerRow :=
  (groupByKey (fun r => (r.code, r.date)) t.sales).map fun g =>
    ⟨g.1.2, g.1.1, sqlSum (g.2.map (·.qty)), some 0⟩

/-- The `CostCenter` arm of the inner union: `GROUP BY Code, Date` with
constant `0` as `Sales_Qty` and `SUM(Qty)` as `CostCenter_Qty`. -/
def innerCCRows (t : Tables) : List InnerRow :=
  (groupByKey (fun r => (r.code, r.date)) t.costCenter).map fun g =>
    ⟨g.1.2, g.1.1, some 0, sqlSum (g.2.map (·.qty))⟩

/-- The inner `UNION ALL` of the two arms. -/
def innerRows (t : Tables) : List InnerRow :=
  innerSalesRows t ++ innerCCRows t

/-- A row of the `Sales_Data` CTE. -/
structure SDRow where
  date : Int
  code : Option String
  qty  : Option Int
deriving Repr, DecidableEq

/-- The `Sales_Data` CTE: the inner union re-grouped by (code, date), with
`SUM(Sales_Qty) + SUM(CostCenter_Qty)` as the quantity (SQL semantics: each
`SUM` ignores `NULL`s and `+` propagates `NULL`). -/
def salesData (t : Tables) : List SDRow :=
  (groupByKey (fun r => (r.code, r.date)) (innerRows t)).map fun g =>
    ⟨g.1.2, g.1.1, sqlAdd (sqlSum (g.2.map (·.s))) (sqlSum (g.2.map (·.c)))⟩

/-- A row of the `Combined` CTE, after the `COALESCE`s of its `SELECT`. -/
structure CRow where
  date  : Int
  code  : Option String
  recQ  : Int
  sale  : Int
deriving Repr, DecidableEq

/-- The join condition `r.Code = s.Code AND r.Date = s.Date` under SQL
three-valued logic: a `NULL` code matches nothing. -/
def joinMatch (r : RDRow) (s : SDRow) : Bool :=
  (match r.code, s.code with
   | some a, some b => decide (a = b)
   | _, _ => false)
  && decide (r.date = s.date)

/-- The `Combined` CTE: `Received_Data FULL OUTER JOIN Sales_Data` on
(code, date).  Every `Received_Data` row appears once (paired with the unique
matching `Sales_Data` row, if any); `Sales_Data` rows matched by no
`Received_Data` row are appended.  Note that a `Sales_Data` row matched by
several `Received_Data` rows (same code and date) is duplicated onto each. -/
def combined (t : Tables) : List CRow :=
  ((receivedData t).map fun r =>
    ⟨r.date, r.code, r.qty,
      match (salesData t).find? (joinMatch r) with
      | some s => s.qty.getD 0
      | none => 0⟩)
  ++ ((salesData t).filter (fun s => !((receivedData t).any (joinMatch · s)))).map
      (fun s => ⟨s.date, s.code, 0, s.qty.getD 0⟩)

/-- A row of the `RunningStock` CTE. -/
structure RSRow where
  code : Option String
  date : Int
  cum  : Int
deriving Repr, DecidableEq

/-- The running sum `SUM(Received_Qty - Sales_Qty) OVER (... ROWS BETWEEN
UNBOUNDED PRECEDING AND CURRENT ROW)` along a partition already sorted by
date: each row carries the prefix sum up to and including itself. -/
def scanCum (c : Option String) (acc : Int) : List CRow → List RSRow
  | [] => []
  | r :: rs =>
      let acc2 := acc + (r.recQ - r.sale)
      ⟨c, r.date, acc2⟩ :: scanCum c acc2 rs

/-- The `RunningStock` CTE: `Combined` partitioned by code (`PARTITION BY`
puts all `NULL` codes in one partition), each partition ordered by date (rows
of equal date keeping presentation order), with the running sum over rows. -/
def runningStock (t : Tables) : List RSRow :=
  (groupByKey (·.code) (combined t)).flatMap fun g =>
    scanCum g.1 0 (sortStable (fun a b => decide (a.date ≤ b.date)) g.2)

/-- The maximum of a list of integers, 0 on the empty list (SQL `MAX` over the
non-empty groups produced by `GROUP BY` never sees the empty case). -/
def maxList : List Int → Int
  | [] => 0
  | v :: vs => vs.foldl max v

/-- The `PrevStock` CTE: rows of `RunningStock` with date strictly before the
window start, grouped by code, keeping `MAX(CumulativeStock)`. -/
def prevStock (t : Tables) (start : Int) : List (Option String × Int) :=
  (groupByKey (·.code) ((runningStock t).filter fun r => decide (r.date < start))).map
    fun g => (g.1, maxList (g.2.map (·.cum)))

/-- The `PeriodTotals` CTE: rows of `Combined` with date in
`[start, endD]`, grouped by code, summing received and sales quantities. -/
def periodTotals (t : Tables) (start endD : Int) :
    List (Option String × Int × Int) :=
  (groupByKey (·.code)
    ((combined t).filter fun r => decide (start ≤ r.date ∧ r.date ≤ endD))).map
    fun g => (g.1, (g.2.map (·.recQ)).sum, (g.2.map (·.sale)).sum)

/-- An output row of the summary: `Code`, `Previous_Stock`, `Total_Received`,
`Total_Sales`, `Stock`. -/
structure SumRow where
  code  : Option String
  prev  : Int
  recQ  : Int
  sale  : Int
  stock : Int
deriving Repr, DecidableEq

/-- The join condition `p.Code = t.Code` of the final `SELECT` under SQL
three-valued logic: a `NULL` code matches nothing. -/
def codeEqB : Option String → Option String → Bool
  | some x, some y => decide (x = y)
  | _, _ => false

/-- The final `SELECT`: `PrevStock FULL OUTER JOIN PeriodTotals ON p.Code =
t.Code` (SQL equality: `NULL` codes never match), every nullable column
`COALESCE`d to 0, and `Stock` computed as the sum of the coalesced columns. -/
def finalJoin (t : Tables) (start endD : Int) : List SumRow :=
  ((prevStock t start).map fun p =>
    match (periodTotals t start endD).find? (fun tr => codeEqB p.1 tr.1) with
    | some tr => ⟨p.1, p.2, tr.2.1, tr.2.2, p.2 + tr.2.1 - tr.2.2⟩
    | none => ⟨p.1, p.2, 0, 0, p.2 + 0 - 0⟩)
  ++ ((periodTotals t start endD).filter fun tr =>
        !((prevStock t start).any fun p => codeEqB p.1 tr.1)).map
      (fun tr => ⟨tr.1, 0, tr.2.1, tr.2.2, 0 + tr.2.1 - tr.2.2⟩)

/-- Lexicographic `≤` on char lists by code point, for `ORDER BY Code`. -/
def charsLe : List Char → List Char → Bool
  | [], _ => true
  | _ :: _, [] => false
  | a :: as, b :: bs =>
      if a.toNat < b.toNat then true
      else if b.toNat < a.toNat then false
      else charsLe as bs

/-- `ORDER BY Code` comparison: ascending on the string codes, `NULL`s last
(DuckDB default `NULLS LAST` for ascending order). -/
def codeLe : Option String → Option String → Bool
  | none, none => true
  | none, some _ => false
  | some _, none => true
  | some a, some b => charsLe a.toList b.toList

/-- The `ORDER BY Code` of the final `SELECT`. -/
def sortByCode (l : List SumRow) : List SumRow :=
  sortStable (fun a b => codeLe a.code b.code) l

/-- One step of matching a Python regex pattern (restricted to literal
characters and the `.` wildcard) against a text, anchored at the current
position, comparing characters case-insensitively (`re.IGNORECASE`, as pandas
`str.contains(search, case=False)` compiles). -/
def matchHere : List Char → List Char → Bool
  | [], _ => true
  | _ :: _, [] => false
  | p :: ps, t :: ts =>
      (p = '.' || p.toLower = t.toLower) && matchHere ps ts

/-- Python `re.search` on the restricted pattern language: the pattern matches
at some position of the text. -/
def reSearch (pat : List Char) : List Char → Bool
  | [] => matchHere pat []
  | t :: ts => matchHere pat (t :: ts) || reSearch pat ts

/-- The pandas filter predicate
`df['Code'].str.contains(search_code, case=False, na=False)`: a `NULL` code is
kept out (`na=False`); otherwise the search text is a case-insensitive regular
expression searched inside the code. -/
def rowKeep (search : String) (row : SumRow) : Bool :=
  match row.code with
  | none => false
  | some c => reSearch search.toList c.toList

/-- `get_inventory_summary(start_date, end_date, search_code)`: the SQL query
(CTE pipeline ending in the code-ordered final select) followed by the pandas
search filter, applied only when `search_code` is non-empty. -/
def getInventorySummary (t : Tables) (start endD : Int) (search : String) :
    List SumRow :=
  if search = "" then sortByCode (finalJoin t start endD)
  else (sortByCode (finalJoin t start endD)).filter (rowKeep search)

/-- What the Stock Register page does with the selected dates: either it runs
and displays a computation, or it shows a validation error. -/
inductive PageResult where
  | shown (rows : List SumRow)
  | validationError (msg : String)
deriving Repr, DecidableEq

/-- The page's dispatch on the Inventory Summary view: the summary runs only
under the `start_date <= end_date` guard; otherwise `st.error` is shown. -/
def stockRegisterPage (t : Tables) (start endD : Int) (search : String) :
    PageResult :=
  if start ≤ endD then .shown (getInventorySummary t start endD search)
  else .validationError "End date must be after start date."

/-! ## Specification-side definitions

These definitions follow the specification's words (not the SQL) and exist to
be compared with the embedded code above. -/

/-- Modelled from the spec (§4.1 Event Normalizer): the uniform signed event
stream — received and adjustment quantities as inflows, sales and cost-center
quantities as outflows; a missing quantity is treated as zero and a record
with a missing product code is dropped. -/
def specEvents (t : Tables) : List (Int × String × Int) :=
  ((t.received ++ t.adjustment).filterMap fun r =>
    r.code.map fun c => (r.date, c, r.qty.getD 0))
  ++ ((t.sales ++ t.costCenter).filterMap fun r =>
      r.code.map fun c => (r.date, c, -(r.qty.getD 0)))

/-- Modelled from the spec (§4.3 step 1): the cumulative balance of a product
at the latest event date strictly before the window start — i.e. the sum of
all its signed quantities with date strictly before `start` (0 when no such
event exists). -/
def specPrevBalance (t : Tables) (c : String) (start : Int) : Int :=
  (((specEvents t).filter fun e => decide (e.2.1 = c ∧ e.1 < start)).map
    (·.2.2)).sum

/-- Case-insensitive "starts with" on character lists (the literal-containment
notion used by the spec-side reading of the search filter). -/
def startsWithCI : List Char → List Char → Bool
  | [], _ => true
  | _ :: _, [] => false
  | p :: ps, t :: ts => (p.toLower = t.toLower) && startsWithCI ps ts

/-- Case-insensitive literal substring containment: the first list occurs
contiguously (up to case) inside the second. -/
def containsCI (pat : List Char) : List Char → Bool
  | [] => startsWithCI pat []
  | t :: ts => startsWithCI pat (t :: ts) || containsCI pat ts

/-- The spec-side filter predicate: keep a row iff its code is non-null and
literally contains the search string case-insensitively. -/
def rowLitKeep (search : String) (row : SumRow) : Bool :=
  match row.code with
  | none => false
  | some c => containsCI search.toList c.toList

/-- `true` iff the string holds none of Python's regular-expression
metacharacters, so its regex reading and its literal reading coincide. -/
def noRegexMeta (s : String) : Bool :=
  s.toList.all fun c =>
    !(c = '.' || c = '^' || c = '$' || c = '*' || c = '+' || c = '?' ||
      c = '{' || c = '}' || c = '[' || c = ']' || c = '(' || c = ')' ||
      c = '|' || c = '\\')

/-- Replace a row's quantity by its `COALESCE`-to-zero value (`NULL` ↦ 0). -/
def zeroRow (r : SrcRow) : SrcRow :=
  ⟨r.date, r.code, some (r.qty.getD 0)⟩

/-- The same tables with every missing quantity replaced by an explicit 0. -/
def zeroTables (t : Tables) : Tables :=
  ⟨t.sales.map zeroRow, t.costCenter.map zeroRow,
   t.received.map zeroRow, t.adjustment.map zeroRow⟩

/-! ## Concrete inputs used by the claims -/

/-- Tables with no rows at all. -/
def emptyTables : Tables := ⟨[], [], [], []⟩

/-- The spec's worked example for code "ABC": Received 100 on Jan 1, Sales 30
on Jan 5, Sales 20 on Jan 10, Received 10 on Jan 15 (days as integers). -/
def exampleABC : Tables :=
  { sales := [⟨5, some "ABC", some 30⟩, ⟨10, some "ABC", some 20⟩],
    costCenter := [],
    received := [⟨1, some "ABC", some 100⟩, ⟨15, some "ABC", some 10⟩],
    adjustment := [] }

/-- Two same-day Received rows of 5 and 3 for code "X". -/
def twoSameDay : Tables :=
  { sales := [], costCenter := [],
    received := [⟨1, some "X", some 5⟩, ⟨1, some "X", some 3⟩],
    adjustment := [] }

/-- Received 100 on day 1, Sales 30 on day 5, for the window-split check with
A = 2, B = 6, C = 7. -/
def splitT : Tables :=
  { sales := [⟨5, some "P", some 30⟩], costCenter := [],
    received := [⟨1, some "P", some 100⟩], adjustment := [] }

/-- Two same-day received events +10 and −10 for code "X", one presentation
order. -/
def orderA : Tables :=
  { sales := [], costCenter := [],
    received := [⟨1, some "X", some 10⟩, ⟨1, some "X", some (-10)⟩],
    adjustment := [] }

/-- The same two events in the other presentation order. -/
def orderB : Tables :=
  { sales := [], costCenter := [],
    received := [⟨1, some "X", some (-10)⟩, ⟨1, some "X", some 10⟩],
    adjustment := [] }

/-- A code "S" that only ever appears in `Sales`: 30 on day 5 and 20 on
day 10. -/
def salesOnly : Tables :=
  { sales := [⟨5, some "S", some 30⟩, ⟨10, some "S", some 20⟩],
    costCenter := [], received := [], adjustment := [] }

/-- A single received record with a missing product code. -/
def nullCodeT : Tables :=
  { sales := [], costCenter := [],
    received := [⟨3, none, some 5⟩], adjustment := [] }

/-- Missing-code received records, one of them also with a missing
quantity. -/
def nullCodeQtyT : Tables :=
  { sales := [], costCenter := [],
    received := [⟨3, none, some 5⟩, ⟨4, none, none⟩, ⟨5, none, some 2⟩],
    adjustment := [] }

/-- A single received record for code "AXB". -/
def codeAXB : Tables :=
  { sales := [], costCenter := [],
    received := [⟨3, some "AXB", some 5⟩], adjustment := [] }

/-- A single received record for code "A", used to exhibit one summary row. -/
def oneRowT : Tables :=
  { sales := [], costCenter := [],
    received := [⟨1, some "A", some 4⟩], adjustment := [] }

/-! ## Helper lemmas -/

theorem mem_insertLe {α : Type} (le : α → α → Bool) (x : α) (l : List α)
    (y : α) : y ∈ insertLe le x l ↔ y = x ∨ y ∈ l := by
  induction l with
  | nil => simp [insertLe]
  | cons z zs ih =>
      simp only [insertLe]
      split
      · simp [List.mem_cons]
      · simp only [List.mem_cons, ih]
        tauto

theorem mem_sortStable {α : Type} (le : α → α → Bool) (l : List α) (y : α) :
    y ∈ sortStable le l ↔ y ∈ l := by
  induction l with
  | nil => simp [sortStable]
  | cons z zs ih => simp [sortStable, mem_insertLe, ih]

theorem stock_eq_of_mem_finalJoin {t : Tables} {start endD : Int}
    {row : SumRow} (h : row ∈ finalJoin t start endD) :
    row.stock = row.prev + row.recQ - row.sale := by
  unfold finalJoin at h
  rcases List.mem_append.mp h with h1 | h2
  · obtain ⟨p, _, heq⟩ := List.mem_map.mp h1
    split at heq <;> subst heq <;> rfl
  · obtain ⟨tr, _, heq⟩ := List.mem_map.mp h2
    subst heq
    rfl

theorem mem_base_of_mem_summary {t : Tables} {start endD : Int}
    {search : String} {row : SumRow}
    (h : row ∈ getInventorySummary t start endD search) :
    row ∈ finalJoin t start endD := by
  unfold getInventorySummary at h
  have hb : row ∈ sortByCode (finalJoin t start endD) := by
    split at h
    · exact h
    · exact (List.mem_filter.mp h).1
  exact (mem_sortStable _ _ _).mp hb

/-! ## Claims -/

/-- C1: the spec claims that for every product code and window the reported
previous stock equals the cumulative balance at the latest event date strictly
before the window start.  The code instead takes `MAX(CumulativeStock)` over
all pre-window dates: on the spec's own example (Received 100 on day 1, Sales
30 on day 5), `PrevStock` for a window starting on day 6 is 100 — the maximum
of the running balances 100 and 70 — while the cumulative balance at the
latest pre-window date is 70. -/
theorem c1_previous_stock_is_max_not_last :
    prevStock exampleABC 6 = [(some "ABC", 100)] ∧
    specPrevBalance exampleABC "ABC" 6 = 70 := by
  constructor <;> decide

/-- C2: the spec's worked example — code "ABC", Received 100 on 2024-01-01,
Sales 30 on 2024-01-05, Sales 20 on 2024-01-10, Received 10 on 2024-01-15,
window [2024-01-06, 2024-01-12] — is claimed to return previous_stock 70,
total_received 0, total_sold 20, ending stock 50.  The code returns
previous_stock 100 (the pre-window maximum of the running balance) and hence
ending stock 80. -/
theorem c2_worked_example_diverges :
    getInventorySummary exampleABC 6 12 "" = [⟨some "ABC", 100, 0, 20, 80⟩] ∧
    getInventorySummary exampleABC 6 12 "" ≠ [⟨some "ABC", 70, 0, 20, 50⟩] := by
  constructor <;> decide

/-- C3: every row of the inventory summary reports a `Stock` that is exactly
`Previous_Stock + Total_Received - Total_Sales`, for every input event set,
window and search string (the final `SELECT` computes the column that way,
with exact integer arithmetic). -/
theorem c3_stock_invariant (t : Tables) (start endD : Int) (search : String)
    (row : SumRow) (h : row ∈ getInventorySummary t start endD search) :
    row.stock = row.prev + row.recQ - row.sale :=
  stock_eq_of_mem_finalJoin (mem_base_of_mem_summary h)

/-- Witness for C3: the summary of a single received record for code "A"
contains the row (A, 0, 4, 0, 4), and the theorem applies to it. -/
theorem c3_stock_invariant_witness :
    (⟨some "A", 0, 4, 0, 4⟩ : SumRow) ∈ getInventorySummary oneRowT 1 2 "" ∧
    (⟨some "A", 0, 4, 0, 4⟩ : SumRow).stock =
      (⟨some "A", 0, 4, 0, 4⟩ : SumRow).prev +
      (⟨some "A", 0, 4, 0, 4⟩ : SumRow).recQ -
      (⟨some "A", 0, 4, 0, 4⟩ : SumRow).sale :=
  ⟨by decide, c3_stock_invariant oneRowT 1 2 "" _ (by decide)⟩

/-- C4: the spec claims same-day events of a product are aggregated into one
net quantity before the prefix sum, so the running balance has exactly one
point per (code, date) — e.g. Received rows of 5 and 3 on the same day give a
single net inflow of 8.  The code's `Received_Data` is a bare `UNION ALL`, so
the two rows survive into `Combined` and `RunningStock` carries two balance
points (5 and 8) for the same (code, date). -/
theorem c4_same_day_events_not_aggregated :
    runningStock twoSameDay = [⟨some "X", 1, 5⟩, ⟨some "X", 1, 8⟩] := by
  decide

/-- C5: the spec claims that summing period totals over [A, B] and [B+1, C]
matches the totals over [A, C], and that the ending stock over [A, C] equals
the ending stock of the second window [B+1, C].  With events Received 100 on
day 1 and Sales 30 on day 5, and A = 2, B = 6, C = 7: the single-window run
over [2, 7] ends at 70, but the run over [7, 7] ends at 100, because
`PrevStock` takes the pre-window maximum of the running balance rather than
its latest value. -/
theorem c5_window_split_ending_stock_mismatch :
    getInventorySummary splitT 2 7 "" = [⟨some "P", 100, 0, 30, 70⟩] ∧
    getInventorySummary splitT 7 7 "" = [⟨some "P", 100, 0, 0, 100⟩] := by
  constructor <;> decide

/-- C6: the spec claims the summary is a pure function of the input event set,
unaffected by the order in which same-date events of a product are presented.
The tables `orderA` and `orderB` hold the same two events (+10 and −10 for
code "X" on day 1) in the two presentation orders, yet the summaries differ:
the running balances are (10, 0) in one order and (−10, 0) in the other, and
`PrevStock`'s `MAX` reports 10 versus 0. -/
theorem c6_output_depends_on_presentation_order :
    List.Perm orderA.received orderB.received ∧
    orderA.sales = orderB.sales ∧
    orderA.costCenter = orderB.costCenter ∧
    orderA.adjustment = orderB.adjustment ∧
    getInventorySummary orderA 2 2 "" = [⟨some "X", 10, 0, 0, 10⟩] ∧
    getInventorySummary orderB 2 2 "" = [⟨some "X", 0, 0, 0, 0⟩] := by
  refine ⟨by decide, rfl, rfl, rfl, by decide, by decide⟩

/-- C7: negative balances are reported verbatim, never clamped to zero: for a
code "S" appearing only in `Sales` (30 on day 5, 20 on day 10), the summary
over the window [6, 12] reports the exact negative previous stock −30 and the
exact negative ending stock −50 = −30 + 0 − 20. -/
theorem c7_negative_balances_reported_verbatim :
    getInventorySummary salesOnly 6 12 "" = [⟨some "S", -30, 0, 20, -50⟩] ∧
    (-30 : Int) < 0 ∧ (-50 : Int) = -30 + 0 - 20 := by
  refine ⟨by decide, by decide, by decide⟩

/-- C8: whenever the selected window has its start after its end, the Stock
Register page shows the validation error and does not run the summary (in
particular it cannot display a result computed from swapped bounds, since the
result is the error branch). -/
theorem c8_invalid_window_shows_error (t : Tables) (start endD : Int)
    (search : String) (h : endD < start) :
    stockRegisterPage t start endD search =
      .validationError "End date must be after start date." := by
  unfold stockRegisterPage
  rw [if_neg (not_le.mpr h)]

/-- Witness for C8: the guard fires at start = 5, end = 3 on empty tables. -/
theorem c8_invalid_window_shows_error_witness :
    (3 : Int) < 5 ∧
    stockRegisterPage emptyTables 5 3 "" =
      .validationError "End date must be after start date." :=
  ⟨by decide, c8_invalid_window_shows_error emptyTables 5 3 "" (by decide)⟩

theorem keysOf_map {α β κ : Type} [DecidableEq κ] (key1 : α → κ)
    (key2 : β → κ) (f : α → β) (hk : ∀ a, key2 (f a) = key1 a) (l : List α) :
    keysOf key2 (l.map f) = keysOf key1 l := by
  unfold keysOf
  rw [List.map_map]
  congr 1
  exact List.map_congr_left fun a _ => hk a

theorem groupByKey_map {α β κ : Type} [DecidableEq κ] (key1 : α → κ)
    (key2 : β → κ) (f : α → β) (hk : ∀ a, key2 (f a) = key1 a) (l : List α) :
    groupByKey key2 (l.map f) =
      (groupByKey key1 l).map fun g => (g.1, g.2.map f) := by
  unfold groupByKey
  rw [keysOf_map key1 key2 f hk l, List.map_map]
  refine List.map_congr_left fun k _ => ?_
  simp only [Function.comp]
  rw [List.filter_map]
  congr 2
  exact List.filter_congr fun a _ => by simp [Function.comp, hk]

theorem group_rows_nonempty {α κ : Type} [DecidableEq κ] (key : α → κ)
    (l : List α) (g : κ × List α) (hg : g ∈ groupByKey key l) : g.2 ≠ [] := by
  unfold groupByKey at hg
  obtain ⟨k, hk, heq⟩ := List.mem_map.mp hg
  subst heq
  unfold keysOf at hk
  rw [List.mem_dedup] at hk
  obtain ⟨a, ha, hka⟩ := List.mem_map.mp hk
  intro hnil
  have hmem : a ∈ l.filter fun a => decide (key a = k) :=
    List.mem_filter.mpr ⟨ha, by simp [hka]⟩
  have hnil2 : (l.filter fun a => decide (key a = k)) = [] := hnil
  rw [hnil2] at hmem
  simp at hmem

theorem mem_of_mem_group {α κ : Type} [DecidableEq κ] (key : α → κ)
    (l : List α) (g : κ × List α) (hg : g ∈ groupByKey key l) (a : α)
    (ha : a ∈ g.2) : a ∈ l := by
  unfold groupByKey at hg
  obtain ⟨k, _, heq⟩ := List.mem_map.mp hg
  subst heq
  exact (List.mem_filter.mp ha).1

theorem sum_getD_eq_sum_filterMap (l : List (Option Int)) :
    (l.map fun o => o.getD 0).sum = (l.filterMap id).sum := by
  induction l with
  | nil => rfl
  | cons o os ih => cases o <;> simp [List.filterMap_cons, ih]

theorem sqlSum_zeroed (l : List (Option Int)) (h : l ≠ []) :
    sqlSum (l.map fun o => some (o.getD 0)) = some ((sqlSum l).getD 0) := by
  unfold sqlSum
  rw [List.filterMap_map]
  have h1 : List.filterMap (id ∘ fun o : Option Int => some (o.getD 0)) l
      = l.map fun o => o.getD 0 := by
    have h2 : (id ∘ fun o : Option Int => some (o.getD 0))
        = some ∘ fun o : Option Int => o.getD 0 := rfl
    rw [h2, List.filterMap_eq_map]
  rw [h1]
  have hne : (l.map fun o => o.getD 0).isEmpty = false := by
    cases l with
    | nil => exact absurd rfl h
    | cons a as => rfl
  rw [hne]
  simp only [Bool.false_eq_true, if_false]
  congr 1
  split
  · next hemp =>
      rw [List.isEmpty_iff] at hemp
      simp [sum_getD_eq_sum_filterMap, hemp]
  · next => simp [sum_getD_eq_sum_filterMap]

theorem sqlSum_eq_none_iff (l : List (Option Int)) :
    sqlSum l = none ↔ ∀ o ∈ l, o = none := by
  unfold sqlSum
  constructor
  · intro h
    split at h
    · next hemp =>
        rw [List.isEmpty_iff] at hemp
        intro o ho
        simpa using List.filterMap_eq_nil_iff.mp hemp o ho
    · next => exact absurd h (by simp)
  · intro h
    have hnil : l.filterMap id = [] :=
      List.filterMap_eq_nil_iff.mpr fun a ha => by simp [h a ha]
    simp [hnil]

theorem filterMap_sum_zero (l : List (Option Int))
    (hz : ∀ o ∈ l, o = some 0) : (l.filterMap id).sum = 0 := by
  induction l with
  | nil => rfl
  | cons a as ih =>
      have ha := hz a (List.mem_cons_self a as)
      subst ha
      rw [List.filterMap_cons]
      simp [ih fun o ho => hz o (List.mem_cons_of_mem _ ho)]

theorem sqlSum_all_zero (l : List (Option Int)) (h : l ≠ [])
    (hz : ∀ o ∈ l, o = some 0) : sqlSum l = some 0 := by
  cases l with
  | nil => exact absurd rfl h
  | cons a as =>
      have ha := hz a (List.mem_cons_self a as)
      subst ha
      simp [sqlSum, List.filterMap_cons,
        filterMap_sum_zero as fun o ho => hz o (List.mem_cons_of_mem _ ho)]

theorem sqlAdd_getD (A C : Option Int) (h1 : A = none → C = some 0)
    (h2 : C = none → A = some 0) :
    some (A.getD 0 + C.getD 0) = some ((sqlAdd A C).getD 0) := by
  cases A <;> cases C <;> simp_all [sqlAdd]

theorem receivedData_zeroTables (t : Tables) :
    receivedData (zeroTables t) = receivedData t := by
  simp only [receivedData, zeroTables]
  rw [← List.map_append, List.map_map]
  exact List.map_congr_left fun r _ => rfl

theorem innerRows_sc (t : Tables) (row : InnerRow) (h : row ∈ innerRows t) :
    row.s = some 0 ∨ row.c = some 0 := by
  unfold innerRows innerSalesRows innerCCRows at h
  rcases List.mem_append.mp h with h1 | h1
  · obtain ⟨g, _, heq⟩ := List.mem_map.mp h1
    subst heq
    right
    rfl
  · obtain ⟨g, _, heq⟩ := List.mem_map.mp h1
    subst heq
    left
    rfl

theorem innerRows_zeroTables (t : Tables) :
    innerRows (zeroTables t) = (innerRows t).map fun row =>
      ⟨row.date, row.code, some (row.s.getD 0), some (row.c.getD 0)⟩ := by
  unfold innerRows
  rw [List.map_append]
  congr 1
  · unfold innerSalesRows
    have hz : (zeroTables t).sales = t.sales.map zeroRow := rfl
    rw [hz, groupByKey_map (fun r : SrcRow => (r.code, r.date))
      (fun r : SrcRow => (r.code, r.date)) zeroRow (fun a => rfl) t.sales,
      List.map_map, List.map_map]
    refine List.map_congr_left fun g hg => ?_
    have hne : g.2 ≠ [] := group_rows_nonempty _ _ _ hg
    simp only [Function.comp]
    show (⟨g.1.2, g.1.1,
        sqlSum ((g.2.map zeroRow).map fun r => r.qty), some 0⟩ : InnerRow)
      = ⟨g.1.2, g.1.1, some ((sqlSum (g.2.map fun r => r.qty)).getD 0),
          some ((some 0 : Option Int).getD 0)⟩
    have hqs : (g.2.map zeroRow).map (fun r : SrcRow => r.qty)
        = (g.2.map fun r : SrcRow => r.qty).map fun o => some (o.getD 0) := by
      rw [List.map_map, List.map_map]
      rfl
    have hmapne : (g.2.map fun r : SrcRow => r.qty) ≠ [] := by simpa using hne
    rw [hqs, sqlSum_zeroed _ hmapne]
    rfl
  · unfold innerCCRows
    have hz : (zeroTables t).costCenter = t.costCenter.map zeroRow := rfl
    rw [hz, groupByKey_map (fun r : SrcRow => (r.code, r.date))
      (fun r : SrcRow => (r.code, r.date)) zeroRow (fun a => rfl) t.costCenter,
      List.map_map, List.map_map]
    refine List.map_congr_left fun g hg => ?_
    have hne : g.2 ≠ [] := group_rows_nonempty _ _ _ hg
    simp only [Function.comp]
    show (⟨g.1.2, g.1.1, some 0,
        sqlSum ((g.2.map zeroRow).map fun r => r.qty)⟩ : InnerRow)
      = ⟨g.1.2, g.1.1, some ((some 0 : Option Int).getD 0),
          some ((sqlSum (g.2.map fun r => r.qty)).getD 0)⟩
    have hqs : (g.2.map zeroRow).map (fun r : SrcRow => r.qty)
        = (g.2.map fun r : SrcRow => r.qty).map fun o => some (o.getD 0) := by
      rw [List.map_map, List.map_map]
      rfl
    have hmapne : (g.2.map fun r : SrcRow => r.qty) ≠ [] := by simpa using hne
    rw [hqs, sqlSum_zeroed _ hmapne]
    rfl

theorem salesData_zeroTables (t : Tables) :
    salesData (zeroTables t) = (salesData t).map fun s =>
      ⟨s.date, s.code, some (s.qty.getD 0)⟩ := by
  unfold salesData
  rw [innerRows_zeroTables,
    groupByKey_map (fun r : InnerRow => (r.code, r.date))
      (fun r : InnerRow => (r.code, r.date))
      (fun row : InnerRow =>
        (⟨row.date, row.code, some (row.s.getD 0), some (row.c.getD 0)⟩ :
          InnerRow))
      (fun a => rfl) (innerRows t),
    List.map_map, List.map_map]
  refine List.map_congr_left fun g hg => ?_
  have hne : g.2 ≠ [] := group_rows_nonempty _ _ _ hg
  have hsc : ∀ row ∈ g.2, row.s = some 0 ∨ row.c = some 0 := fun row hrow =>
    innerRows_sc t row (mem_of_mem_group _ _ _ hg row hrow)
  simp only [Function.comp]
  show (⟨g.1.2, g.1.1,
      sqlAdd
        (sqlSum ((g.2.map fun row : InnerRow =>
          (⟨row.date, row.code, some (row.s.getD 0), some (row.c.getD 0)⟩ :
            InnerRow)).map fun r => r.s))
        (sqlSum ((g.2.map fun row : InnerRow =>
          (⟨row.date, row.code, some (row.s.getD 0), some (row.c.getD 0)⟩ :
            InnerRow)).map fun r => r.c))⟩ : SDRow)
    = ⟨g.1.2, g.1.1,
        some ((sqlAdd (sqlSum (g.2.map fun r => r.s))
          (sqlSum (g.2.map fun r => r.c))).getD 0)⟩
  have hs : (g.2.map fun row : InnerRow =>
      (⟨row.date, row.code, some (row.s.getD 0), some (row.c.getD 0)⟩ :
        InnerRow)).map (fun r : InnerRow => r.s)
      = (g.2.map fun r : InnerRow => r.s).map fun o => some (o.getD 0) := by
    rw [List.map_map, List.map_map]
    rfl
  have hc : (g.2.map fun row : InnerRow =>
      (⟨row.date, row.code, some (row.s.getD 0), some (row.c.getD 0)⟩ :
        InnerRow)).map (fun r : InnerRow => r.c)
      = (g.2.map fun r : InnerRow => r.c).map fun o => some (o.getD 0) := by
    rw [List.map_map, List.map_map]
    rfl
  have hnes : (g.2.map fun r : InnerRow => r.s) ≠ [] := by simpa using hne
  have hnec : (g.2.map fun r : InnerRow => r.c) ≠ [] := by simpa using hne
  rw [hs, hc, sqlSum_zeroed _ hnes, sqlSum_zeroed _ hnec]
  have h1 : sqlSum (g.2.map fun r : InnerRow => r.s) = none →
      sqlSum (g.2.map fun r : InnerRow => r.c) = some 0 := by
    intro hA
    apply sqlSum_all_zero _ hnec
    intro o ho
    obtain ⟨row, hrow, hoeq⟩ := List.mem_map.mp ho
    subst hoeq
    have hrs : row.s = none :=
      (sqlSum_eq_none_iff _).mp hA row.s (List.mem_map_of_mem _ hrow)
    rcases hsc row hrow with h | h
    · rw [hrs] at h
      cases h
    · exact h
  have h2 : sqlSum (g.2.map fun r : InnerRow => r.c) = none →
      sqlSum (g.2.map fun r : InnerRow => r.s) = some 0 := by
    intro hC
    apply sqlSum_all_zero _ hnes
    intro o ho
    obtain ⟨row, hrow, hoeq⟩ := List.mem_map.mp ho
    subst hoeq
    have hrc : row.c = none :=
      (sqlSum_eq_none_iff _).mp hC row.c (List.mem_map_of_mem _ hrow)
    rcases hsc row hrow with h | h
    · exact h
    · rw [hrc] at h
      cases h
  congr 1
  exact sqlAdd_getD _ _ h1 h2

theorem combined_zeroTables (t : Tables) :
    combined (zeroTables t) = combined t := by
  unfold combined
  rw [receivedData_zeroTables, salesData_zeroTables]
  congr 1
  · refine List.map_congr_left fun r _ => ?_
    rw [List.find?_map]
    have hpred : (joinMatch r ∘ fun s : SDRow =>
        (⟨s.date, s.code, some (s.qty.getD 0)⟩ : SDRow)) = joinMatch r := by
      funext s
      rfl
    rw [hpred]
    cases hf : (salesData t).find? (joinMatch r) <;> rfl
  · rw [List.filter_map]
    have hpred2 : ((fun s : SDRow => !((receivedData t).any (joinMatch · s))) ∘
        fun s : SDRow => (⟨s.date, s.code, some (s.qty.getD 0)⟩ : SDRow))
        = fun s : SDRow => !((receivedData t).any (joinMatch · s)) := by
      funext s
      rfl
    rw [hpred2, List.map_map]
    exact List.map_congr_left fun s _ => rfl

theorem summary_zeroTables (t : Tables) (start endD : Int) (search : String) :
    getInventorySummary (zeroTables t) start endD search =
      getInventorySummary t start endD search := by
  unfold getInventorySummary sortByCode finalJoin prevStock periodTotals
    runningStock
  rw [combined_zeroTables]

theorem matchHere_no_dot (pat : List Char) (hnd : ∀ ch ∈ pat, ch ≠ '.') :
    ∀ text, matchHere pat text = startsWithCI pat text := by
  induction pat with
  | nil => intro text; cases text <;> rfl
  | cons p ps ih =>
      intro text
      cases text with
      | nil => rfl
      | cons t ts =>
          unfold matchHere startsWithCI
          rw [ih fun ch hch => hnd ch (List.mem_cons_of_mem _ hch)]
          simp [hnd p (List.mem_cons_self p ps)]

theorem reSearch_no_dot (pat : List Char) (hnd : ∀ ch ∈ pat, ch ≠ '.')
    (text : List Char) : reSearch pat text = containsCI pat text := by
  induction text with
  | nil =>
      unfold reSearch containsCI
      rw [matchHere_no_dot pat hnd]
  | cons t ts ih =>
      unfold reSearch containsCI
      rw [matchHere_no_dot pat hnd, ih]

theorem noRegexMeta_no_dot (q : String) (h : noRegexMeta q = true) :
    ∀ ch ∈ q.toList, ch ≠ '.' := by
  intro ch hch heq
  unfold noRegexMeta at h
  rw [List.all_eq_true] at h
  have hc := h ch hch
  subst heq
  simp at hc

/-- C9 (counterexample): a record with a missing product code is claimed to be
excluded from the output, but a received row with a `NULL` code and quantity 5
produces an output row with a `NULL` code carrying that quantity (the `NULL`
key survives `GROUP BY` as its own group, and the empty search filter is never
applied). -/
theorem c9_missing_code_row_not_dropped :
    getInventorySummary nullCodeT 1 10 "" = [⟨none, 0, 5, 0, 5⟩] := by
  decide

/-- C9 (amended): every record with a missing quantity contributes zero to all
totals and balances — replacing each `NULL` quantity by an explicit 0 leaves
the summary unchanged, for every event set, window and search string.
Records with a missing product code are not excluded: they are aggregated
under a `NULL` code (three missing-code received rows of 5, `NULL` and 2 give
one `NULL`-code output row totalling 7), and disappear only when a non-empty
search string is given, because the pandas filter drops `NULL` codes
(`na=False`).  Neither condition raises an error. -/
theorem c9_amended_null_handling :
    (∀ (t : Tables) (start endD : Int) (search : String),
      getInventorySummary (zeroTables t) start endD search =
        getInventorySummary t start endD search) ∧
    getInventorySummary nullCodeQtyT 1 10 "" = [⟨none, 0, 7, 0, 7⟩] ∧
    getInventorySummary nullCodeQtyT 1 10 "A" = [] :=
  ⟨summary_zeroTables, by decide, by decide⟩

/-- C10 (counterexample): the claim reads the search filter as case-insensitive
literal containment, but pandas `str.contains` treats the search text as a
regular expression: searching for "a.b" keeps the row for code "AXB", whose
code does not literally contain "a.b". -/
theorem c10_search_is_regex_not_literal :
    getInventorySummary codeAXB 1 10 "a.b" = [⟨some "AXB", 0, 5, 0, 5⟩] ∧
    containsCI "a.b".toList "AXB".toList = false := by
  constructor <;> decide

/-- C10 (amended): for every non-empty search string free of regex
metacharacters, the filtered summary is exactly the unfiltered summary
restricted to the rows whose code contains the search string
case-insensitively, with all row values unchanged (the filter is applied
after the query, row by row); for strings with metacharacters the filter is a
case-insensitive regular-expression search instead. -/
theorem c10_amended_filter_commutes (t : Tables) (start endD : Int)
    (q : String) (hq : q ≠ "") (hm : noRegexMeta q = true) :
    getInventorySummary t start endD q =
      (getInventorySummary t start endD "").filter (rowLitKeep q) := by
  unfold getInventorySummary
  rw [if_neg hq, if_pos rfl]
  exact List.filter_congr fun row _ => by
    cases hrc : row.code with
    | none => simp [rowKeep, rowLitKeep, hrc]
    | some c =>
        simp only [rowKeep, rowLitKeep, hrc]
        exact reSearch_no_dot _ (noRegexMeta_no_dot q hm) _

/-- Witness for C10 (amended): the search string "x" on a one-row summary. -/
theorem c10_amended_filter_commutes_witness :
    ("x" : String) ≠ "" ∧ noRegexMeta "x" = true ∧
    getInventorySummary oneRowT 1 2 "x" =
      (getInventorySummary oneRowT 1 2 "").filter (rowLitKeep "x") :=
  ⟨by decide, by decide,
    c10_amended_filter_commutes oneRowT 1 2 "x" (by decide) (by decide)⟩
